import Mathlib

/-!
Verification of the order-management core of `zabilal/chpter-microservices`.

The definitions below are a shallow embedding of the Go source:
* the order status enum and `isValidStatusTransition`
  (`internal/order/service/order_service.go`);
* the in-memory order aggregate and the MySQL-backed repository
  (`order-service/handler/order.go`): `CreateOrder` (multi-table
  transaction), `GetOrder`, `ListOrders`, `UpdateOrderStatus`;
* the gRPC handlers (`order-service/handler/order.go`) and the
  internal order service (`internal/order/service/order_service.go`),
  with the user-directory client modelled as an oracle function and
  database/exec failures modelled as an explicit failure oracle.

Monetary amounts (`float64` in the source) are carried through the
embedding as rational values standing for the doubles; where a claim is
about the arithmetic itself, the total-accumulation loop is additionally
modelled with IEEE-754 binary64 semantics (`roundF64`, round to nearest,
ties to even, 53 significant bits). `uuid.New()` is modelled by an
injected id generator; `time.Now()` / SQL `NOW()` by an injected `Nat`
timestamp.
-/

/-- Order status wire enum (`order.proto`): unspecified, pending,
processing, completed, cancelled, failed. -/
inductive OrderStatus : Type
  | unspecified
  | pending
  | processing
  | completed
  | cancelled
  | failed
  deriving DecidableEq, Repr, Fintype

/-- Payment status wire enum (`order.proto`). -/
inductive PaymentStatus : Type
  | unspecified
  | pending
  | completed
  | failed
  | refunded
  deriving DecidableEq, Repr

/-- Payment method wire enum (`order.proto`). -/
inductive PaymentMethod : Type
  | unspecified
  | creditCard
  | debitCard
  | bankTransfer
  deriving DecidableEq, Repr

/-- Shipping status wire enum (`order.proto`). -/
inductive ShippingStatus : Type
  | unspecified
  | pending
  | shipped
  | delivered
  | returned
  deriving DecidableEq, Repr

/-- The hard-coded transition map of `isValidStatusTransition` in
`internal/order/service/order_service.go`: an association list from a
current status to the list of statuses it may move to. -/
def transitionTable : List (OrderStatus × List OrderStatus) :=
  [ (.pending, [.processing, .cancelled]),
    (.processing, [.completed, .failed]) ]

/-- Embedding of `isValidStatusTransition(current, new)`: look the current
status up in the transition map; a status that is not a key yields `false`;
otherwise scan the allowed-target list for the requested status. -/
def isValidStatusTransition (current new : OrderStatus) : Bool :=
  match transitionTable.find? (fun p => decide (p.1 = current)) with
  | none => false
  | some p => p.2.any (fun s => decide (new = s))

/-- **C2.** `isValidStatusTransition` returns `true` exactly for the four
pairs (pending, processing), (pending, cancelled), (processing, completed),
(processing, failed), and `false` for every other pair; in particular every
status that is not a key of the table (completed, cancelled, failed,
unspecified) has no legal outgoing transition. -/
theorem isValidStatusTransition_characterization :
    ∀ current new : OrderStatus,
      (isValidStatusTransition current new = true ↔
        ((current, new) = (.pending, .processing) ∨
         (current, new) = (.pending, .cancelled) ∨
         (current, new) = (.processing, .completed) ∨
         (current, new) = (.processing, .failed))) ∧
      (current = .completed ∨ current = .cancelled ∨ current = .failed ∨
          current = .unspecified →
        isValidStatusTransition current new = false) := by
  decide

/-! ## Order aggregate (in-memory shapes of `order-service/handler/order.go`) -/

/-- In-memory order item (`OrderItem` struct / `pb.OrderItem`): product id,
quantity (`int32`), unit price (`float64`, modelled exactly), display name. -/
structure OrderItem : Type where
  productID : String
  quantity : Int
  unitPrice : ℚ
  productName : String
  deriving DecidableEq, Repr

/-- In-memory payment info (`PaymentInfo` struct). -/
structure PaymentInfo : Type where
  paymentID : String
  status : PaymentStatus
  method : PaymentMethod
  processedAt : Nat
  deriving DecidableEq, Repr

/-- In-memory shipping info (`ShippingInfo` struct). -/
structure ShippingInfo : Type where
  addressLine1 : String
  addressLine2 : String
  city : String
  state : String
  country : String
  postalCode : String
  status : ShippingStatus
  deriving DecidableEq, Repr

/-- In-memory order aggregate (`Order` struct). -/
structure Order : Type where
  id : String
  userID : String
  items : List OrderItem
  totalAmount : ℚ
  status : OrderStatus
  paymentInfo : PaymentInfo
  shippingInfo : ShippingInfo
  createdAt : Nat
  updatedAt : Nat
  deriving DecidableEq, Repr

/-! ## Storage model: the four MySQL tables of the order repository -/

/-- A row of the `orders` table. -/
structure OrderRow : Type where
  id : String
  userID : String
  status : OrderStatus
  totalAmount : ℚ
  createdAt : Nat
  updatedAt : Nat
  deriving DecidableEq, Repr

/-- A row of the `order_items` table. -/
structure ItemRow : Type where
  rowID : String
  orderID : String
  productID : String
  quantity : Int
  unitPrice : ℚ
  productName : String
  deriving DecidableEq, Repr

/-- A row of the `payment_info` table. -/
structure PaymentRow : Type where
  rowID : String
  orderID : String
  paymentID : String
  status : PaymentStatus
  method : PaymentMethod
  processedAt : Nat
  deriving DecidableEq, Repr

/-- A row of the `shipping_info` table. -/
structure ShippingRow : Type where
  rowID : String
  orderID : String
  addressLine1 : String
  addressLine2 : String
  city : String
  state : String
  country : String
  postalCode : String
  status : ShippingStatus
  deriving DecidableEq, Repr

/-- The order store: the four related record sets of the persisted schema. -/
structure Db : Type where
  orders : List OrderRow
  orderItems : List ItemRow
  paymentInfos : List PaymentRow
  shippingInfos : List ShippingRow
  deriving DecidableEq, Repr

/-- Errors surfaced by the `database/sql` layer: `sql.ErrNoRows`, or any
other execution/scan failure. -/
inductive SqlError : Type
  | errNoRows
  | execFailed
  deriving DecidableEq, Repr

/-! ## Transaction model

A transaction holds the base store plus a buffer of pending inserts;
`Exec` appends to the buffer (or fails, as decided by a failure oracle
consumed left to right), `Rollback` discards the buffer, `Commit` applies
it. `BeginTx` and `Commit` each consume one oracle entry as well. -/

/-- One pending insert of the order-creation transaction. -/
inductive Write : Type
  | order (r : OrderRow)
  | item (r : ItemRow)
  | payment (r : PaymentRow)
  | shipping (r : ShippingRow)
  deriving DecidableEq, Repr

/-- Apply one committed insert to the store. -/
def applyWrite (db : Db) : Write → Db
  | .order r => { db with orders := db.orders ++ [r] }
  | .item r => { db with orderItems := db.orderItems ++ [r] }
  | .payment r => { db with paymentInfos := db.paymentInfos ++ [r] }
  | .shipping r => { db with shippingInfos := db.shippingInfos ++ [r] }

/-- Pop the next verdict off the failure oracle; an exhausted oracle means
the operation succeeds. -/
def oracleNext (o : List Bool) : Bool × List Bool :=
  match o with
  | [] => (false, [])
  | b :: rest => (b, rest)

/-- The item rows inserted by the loop of `orderRepository.CreateOrder`:
one row per item, each with a fresh generated row id. -/
def itemRowsOf (orderID : String) (uuids : Nat → String) (k : Nat) :
    List OrderItem → List ItemRow
  | [] => []
  | it :: rest =>
      ⟨uuids k, orderID, it.productID, it.quantity, it.unitPrice,
        it.productName⟩ :: itemRowsOf orderID uuids (k + 1) rest

/-- The item-insert loop of `orderRepository.CreateOrder`: execute one
insert per item, aborting at the first failure. Returns the writes buffered
by the loop (on success) and the remaining oracle. -/
def insertItemsTx (orderID : String) (uuids : Nat → String) (k : Nat)
    (items : List OrderItem) (pending : List Write) (o : List Bool) :
    Except SqlError (List Write) × List Bool :=
  match items with
  | [] => (.ok pending, o)
  | it :: rest =>
      match oracleNext o with
      | (true, o') => (.error .execFailed, o')
      | (false, o') =>
          insertItemsTx orderID uuids (k + 1) rest
            (pending ++
              [.item ⟨uuids k, orderID, it.productID, it.quantity,
                it.unitPrice, it.productName⟩]) o'

/-- Embedding of `orderRepository.CreateOrder` (`order.go`): begin a
transaction, insert the order header, every item, the payment record and
the shipping record, rolling the transaction back and returning the error
if any step fails, committing at the end. Returns the outcome together
with the resulting store (unchanged on every error path). `uuids` supplies
the generated row ids, `now` the SQL `NOW()` timestamp. -/
def repoCreateOrder (db : Db) (order : Order) (uuids : Nat → String)
    (now : Nat) (oracle : List Bool) : Except SqlError Unit × Db :=
  -- BeginTx
  match oracleNext oracle with
  | (true, _) => (.error .execFailed, db)
  | (false, o1) =>
    -- INSERT INTO orders
    match oracleNext o1 with
    | (true, _) => (.error .execFailed, db)
    | (false, o2) =>
      let headerWrite : Write :=
        .order ⟨order.id, order.userID, order.status, order.totalAmount,
          now, now⟩
      -- INSERT INTO order_items, one exec per item
      match insertItemsTx order.id uuids 0 order.items [headerWrite] o2 with
      | (.error e, _) => (.error e, db)
      | (.ok pending1, o3) =>
        -- INSERT INTO payment_info
        match oracleNext o3 with
        | (true, _) => (.error .execFailed, db)
        | (false, o4) =>
          let payWrite : Write :=
            .payment ⟨uuids order.items.length, order.id,
              order.paymentInfo.paymentID, order.paymentInfo.status,
              order.paymentInfo.method, now⟩
          -- INSERT INTO shipping_info
          match oracleNext o4 with
          | (true, _) => (.error .execFailed, db)
          | (false, o5) =>
            let shipWrite : Write :=
              .shipping ⟨uuids (order.items.length + 1), order.id,
                order.shippingInfo.addressLine1,
                order.shippingInfo.addressLine2,
                order.shippingInfo.city, order.shippingInfo.state,
                order.shippingInfo.country, order.shippingInfo.postalCode,
                order.shippingInfo.status⟩
            -- Commit
            match oracleNext o5 with
            | (true, _) => (.error .execFailed, db)
            | (false, _) =>
                (.ok (),
                  ((pending1 ++ [payWrite, shipWrite]).foldl applyWrite db))

/-- Embedding of `orderRepository.GetOrder` (`order.go`): read the header
row (`sql.ErrNoRows` when absent), gather the item rows, then read the
payment row and the shipping row, each via a single-row query whose scan
fails with `sql.ErrNoRows` when the row is absent. -/
def repoGetOrder (db : Db) (id : String) : Except SqlError Order :=
  match db.orders.find? (fun r => decide (r.id = id)) with
  | none => .error .errNoRows
  | some h =>
    let items :=
      (db.orderItems.filter (fun r => decide (r.orderID = id))).map
        (fun r => OrderItem.mk r.productID r.quantity r.unitPrice
          r.productName)
    match db.paymentInfos.find? (fun r => decide (r.orderID = id)) with
    | none => .error .errNoRows
    | some p =>
      match db.shippingInfos.find? (fun r => decide (r.orderID = id)) with
      | none => .error .errNoRows
      | some s =>
        .ok ⟨h.id, h.userID, items, h.totalAmount, h.status,
          ⟨p.paymentID, p.status, p.method, p.processedAt⟩,
          ⟨s.addressLine1, s.addressLine2, s.city, s.state, s.country,
            s.postalCode, s.status⟩,
          h.createdAt, h.updatedAt⟩

/-! ## Commit shape lemmas for the creation transaction -/

/-- Project an order-header insert. -/
def writeOrderRow : Write → Option OrderRow
  | .order r => some r
  | _ => none

/-- Project an item insert. -/
def writeItemRow : Write → Option ItemRow
  | .item r => some r
  | _ => none

/-- Project a payment insert. -/
def writePaymentRow : Write → Option PaymentRow
  | .payment r => some r
  | _ => none

/-- Project a shipping insert. -/
def writeShippingRow : Write → Option ShippingRow
  | .shipping r => some r
  | _ => none

/-- Committing a buffer of inserts appends, table by table, exactly the
rows it carries. -/
theorem foldl_applyWrite (ws : List Write) (db : Db) :
    ws.foldl applyWrite db =
      ⟨db.orders ++ ws.filterMap writeOrderRow,
        db.orderItems ++ ws.filterMap writeItemRow,
        db.paymentInfos ++ ws.filterMap writePaymentRow,
        db.shippingInfos ++ ws.filterMap writeShippingRow⟩ := by
  induction ws generalizing db with
  | nil => simp
  | cons w ws ih =>
      cases w <;>
        simp [applyWrite, ih, writeOrderRow, writeItemRow, writePaymentRow,
          writeShippingRow, List.filterMap_cons]

/-- The item-insert loop, when it succeeds, buffers exactly one item row
per item after the writes it started with. -/
theorem insertItemsTx_ok (orderID : String) (uuids : Nat → String) :
    ∀ (items : List OrderItem) (k : Nat) (pending : List Write)
      (o o' : List Bool) (p' : List Write),
      insertItemsTx orderID uuids k items pending o = (.ok p', o') →
      p' = pending ++ (itemRowsOf orderID uuids k items).map Write.item := by
  intro items
  induction items with
  | nil =>
      intro k pending o o' p' h
      simp [insertItemsTx, itemRowsOf] at h
      simp [itemRowsOf, h.1]
  | cons it rest ih =>
      intro k pending o o' p' h
      rw [insertItemsTx] at h
      rcases hb : oracleNext o with ⟨b, o1⟩
      rw [hb] at h
      cases b with
      | true => simp at h
      | false =>
          simp at h
          have := ih (k + 1) _ _ _ _ h
          rw [this]
          simp [itemRowsOf]

/-- Item writes contribute no header rows. -/
theorem filterMap_writeOrderRow_items (rows : List ItemRow) :
    rows.filterMap (writeOrderRow ∘ Write.item) = [] := by
  induction rows with
  | nil => rfl
  | cons r rows ih => simp [writeOrderRow, ih, List.filterMap_cons]

/-- Item writes contribute exactly their item rows. -/
theorem filterMap_writeItemRow_items (rows : List ItemRow) :
    rows.filterMap (writeItemRow ∘ Write.item) = rows := by
  induction rows with
  | nil => rfl
  | cons r rows ih => simp [writeItemRow, ih, List.filterMap_cons]

/-- Item writes contribute no payment rows. -/
theorem filterMap_writePaymentRow_items (rows : List ItemRow) :
    rows.filterMap (writePaymentRow ∘ Write.item) = [] := by
  induction rows with
  | nil => rfl
  | cons r rows ih => simp [writePaymentRow, ih, List.filterMap_cons]

/-- Item writes contribute no shipping rows. -/
theorem filterMap_writeShippingRow_items (rows : List ItemRow) :
    rows.filterMap (writeShippingRow ∘ Write.item) = [] := by
  induction rows with
  | nil => rfl
  | cons r rows ih => simp [writeShippingRow, ih, List.filterMap_cons]

/-- The header row inserted for an order at timestamp `now`. -/
def headerRowOf (order : Order) (now : Nat) : OrderRow :=
  ⟨order.id, order.userID, order.status, order.totalAmount, now, now⟩

/-- The payment row inserted for an order. -/
def paymentRowOf (order : Order) (uuids : Nat → String) (now : Nat) :
    PaymentRow :=
  ⟨uuids order.items.length, order.id, order.paymentInfo.paymentID,
    order.paymentInfo.status, order.paymentInfo.method, now⟩

/-- The shipping row inserted for an order. -/
def shippingRowOf (order : Order) (uuids : Nat → String) : ShippingRow :=
  ⟨uuids (order.items.length + 1), order.id,
    order.shippingInfo.addressLine1, order.shippingInfo.addressLine2,
    order.shippingInfo.city, order.shippingInfo.state,
    order.shippingInfo.country, order.shippingInfo.postalCode,
    order.shippingInfo.status⟩

/-- **C1.** The creation transaction is all-or-nothing: whenever any write
of the sequence fails, the store after the attempt equals the store before
it — so a subsequent read observes no partial order — and when the attempt
succeeds, the header, every item row, the payment row and the shipping row
are all appended together. -/
theorem repoCreateOrder_atomic (db : Db) (order : Order)
    (uuids : Nat → String) (now : Nat) (oracle : List Bool) :
    (∀ e : SqlError,
      (repoCreateOrder db order uuids now oracle).1 = .error e →
        (repoCreateOrder db order uuids now oracle).2 = db ∧
        ∀ id : String,
          repoGetOrder (repoCreateOrder db order uuids now oracle).2 id =
            repoGetOrder db id) ∧
    ((repoCreateOrder db order uuids now oracle).1 = .ok () →
      (repoCreateOrder db order uuids now oracle).2 =
        ⟨db.orders ++ [headerRowOf order now],
          db.orderItems ++ itemRowsOf order.id uuids 0 order.items,
          db.paymentInfos ++ [paymentRowOf order uuids now],
          db.shippingInfos ++ [shippingRowOf order uuids]⟩) := by
  unfold repoCreateOrder
  rcases h0 : oracleNext oracle with ⟨b0, o1⟩
  simp only [h0]
  cases b0 with
  | true => simp
  | false =>
    rcases h1 : oracleNext o1 with ⟨b1, o2⟩
    simp only [h1]
    cases b1 with
    | true => simp
    | false =>
      rcases h2 : insertItemsTx order.id uuids 0 order.items
          [Write.order ⟨order.id, order.userID, order.status,
            order.totalAmount, now, now⟩] o2 with ⟨res, o3⟩
      simp only [h2]
      cases res with
      | error e => simp
      | ok pending1 =>
        have hp : pending1 =
            [Write.order (headerRowOf order now)] ++
              (itemRowsOf order.id uuids 0 order.items).map Write.item :=
          insertItemsTx_ok order.id uuids order.items 0 _ o2 o3 pending1 h2
        rcases h3 : oracleNext o3 with ⟨b3, o4⟩
        simp only [h3]
        cases b3 with
        | true => simp
        | false =>
          rcases h4 : oracleNext o4 with ⟨b4, o5⟩
          simp only [h4]
          cases b4 with
          | true => simp
          | false =>
            rcases h5 : oracleNext o5 with ⟨b5, o6⟩
            simp only [h5]
            cases b5 with
            | true => simp
            | false =>
              rw [hp]
              simp [foldl_applyWrite, applyWrite, List.filterMap_append,
                filterMap_writeOrderRow_items, filterMap_writeItemRow_items,
                filterMap_writePaymentRow_items,
                filterMap_writeShippingRow_items, writeOrderRow, writeItemRow,
                writePaymentRow, writeShippingRow, headerRowOf, paymentRowOf,
                shippingRowOf]

/-- Witness for C1: a concrete attempt whose second item insert fails
leaves a concrete non-empty store untouched. -/
theorem repoCreateOrder_atomic_witness :
    (repoCreateOrder
        ⟨[⟨"o0", "u0", .pending, 5, 1, 1⟩], [], [], []⟩
        ⟨"o1", "u1", [⟨"p1", 2, 10, "A"⟩, ⟨"p2", 1, 3, "B"⟩], 23,
          .pending, ⟨"pay1", .pending, .creditCard, 0⟩,
          ⟨"l1", "", "c", "s", "cy", "z", .pending⟩, 7, 7⟩
        (fun n => Nat.repr n) 7
        [false, false, false, true]).1 = .error .execFailed ∧
    (repoCreateOrder
        ⟨[⟨"o0", "u0", .pending, 5, 1, 1⟩], [], [], []⟩
        ⟨"o1", "u1", [⟨"p1", 2, 10, "A"⟩, ⟨"p2", 1, 3, "B"⟩], 23,
          .pending, ⟨"pay1", .pending, .creditCard, 0⟩,
          ⟨"l1", "", "c", "s", "cy", "z", .pending⟩, 7, 7⟩
        (fun n => Nat.repr n) 7
        [false, false, false, true]).2 =
      ⟨[⟨"o0", "u0", .pending, 5, 1, 1⟩], [], [], []⟩ := by
  refine ⟨rfl, ?_⟩
  exact (repoCreateOrder_atomic
    ⟨[⟨"o0", "u0", .pending, 5, 1, 1⟩], [], [], []⟩
    ⟨"o1", "u1", [⟨"p1", 2, 10, "A"⟩, ⟨"p2", 1, 3, "B"⟩], 23,
      .pending, ⟨"pay1", .pending, .creditCard, 0⟩,
      ⟨"l1", "", "c", "s", "cy", "z", .pending⟩, 7, 7⟩
    (fun n => Nat.repr n) 7
    [false, false, false, true]).1 .execFailed rfl |>.1

/-! ## Status update at the persistence layer -/

/-- Effect of the SQL `UPDATE orders SET status = ?, updated_at = NOW()
WHERE id = ?` on one row. -/
def updateStatusRow (id : String) (st : OrderStatus) (now : Nat)
    (r : OrderRow) : OrderRow :=
  if r.id = id then { r with status := st, updatedAt := now } else r

/-- Embedding of `orderRepository.UpdateOrderStatus` (`order.go`): run the
update, count the affected rows, and fail with `sql.ErrNoRows` when zero
rows were affected. -/
def repoUpdateOrderStatus (db : Db) (id : String) (st : OrderStatus)
    (now : Nat) : Except SqlError Db :=
  let affected := db.orders.countP (fun r => decide (r.id = id))
  if affected = 0 then .error .errNoRows
  else .ok { db with orders := db.orders.map (updateStatusRow id st now) }

/-- **C9.** When no order row matches, the persistence update fails with
`sql.ErrNoRows`; when a row matches, the call succeeds, the item, payment
and shipping tables are untouched, and each order row keeps its id, user
id, total amount and creation timestamp — a matching row gets exactly the
new status and the new update timestamp, a non-matching row is unchanged. -/
theorem repoUpdateOrderStatus_frame (db : Db) (id : String)
    (st : OrderStatus) (now : Nat) :
    ((¬ ∃ r ∈ db.orders, r.id = id) →
      repoUpdateOrderStatus db id st now = .error .errNoRows) ∧
    ((∃ r ∈ db.orders, r.id = id) →
      repoUpdateOrderStatus db id st now =
        .ok ⟨db.orders.map (updateStatusRow id st now), db.orderItems,
          db.paymentInfos, db.shippingInfos⟩ ∧
      ∀ r ∈ db.orders,
        (updateStatusRow id st now r).id = r.id ∧
        (updateStatusRow id st now r).userID = r.userID ∧
        (updateStatusRow id st now r).totalAmount = r.totalAmount ∧
        (updateStatusRow id st now r).createdAt = r.createdAt ∧
        (r.id = id → (updateStatusRow id st now r).status = st ∧
          (updateStatusRow id st now r).updatedAt = now) ∧
        (r.id ≠ id → updateStatusRow id st now r = r)) := by
  constructor
  · intro h
    have hz : db.orders.countP (fun r => decide (r.id = id)) = 0 := by
      rw [List.countP_eq_zero]
      intro a ha
      simp only [decide_eq_true_eq]
      exact fun he => h ⟨a, ha, he⟩
    simp [repoUpdateOrderStatus, hz]
  · rintro ⟨r, hr, he⟩
    have hz : db.orders.countP (fun r => decide (r.id = id)) ≠ 0 := by
      intro h0
      rw [List.countP_eq_zero] at h0
      exact absurd he (by simpa using h0 r hr)
    refine ⟨by simp [repoUpdateOrderStatus, hz], ?_⟩
    intro a _
    unfold updateStatusRow
    by_cases hid : a.id = id <;> simp [hid]

/-- Witness for C9: updating an existing one-row store succeeds and keeps
every field but the status and update timestamp; the other tables stay
empty. -/
theorem repoUpdateOrderStatus_frame_witness :
    repoUpdateOrderStatus
        ⟨[⟨"o1", "u1", .pending, 20, 3, 3⟩], [], [], []⟩
        "o1" .processing 9 =
      .ok ⟨[⟨"o1", "u1", .processing, 20, 3, 9⟩], [], [], []⟩ := by
  have h := (repoUpdateOrderStatus_frame
    ⟨[⟨"o1", "u1", .pending, 20, 3, 3⟩], [], [], []⟩ "o1" .processing 9).2
    ⟨⟨"o1", "u1", .pending, 20, 3, 3⟩, by simp, rfl⟩
  rw [h.1]
  rfl

/-! ## gRPC layer: codes, user snapshots, proto orders -/

/-- gRPC status codes used by the handlers. -/
inductive Code : Type
  | ok
  | invalidArgument
  | notFound
  | internal
  | unavailable
  deriving DecidableEq, Repr

/-- A gRPC error: a status code with a message. -/
structure GrpcErr : Type where
  code : Code
  msg : String
  deriving DecidableEq, Repr

/-- A user snapshot as returned by the user directory. -/
structure User : Type where
  id : String
  email : String
  username : String
  deriving DecidableEq, Repr

/-- Wire-format order (`pb.Order`): the aggregate plus an optional user
snapshot. -/
structure ProtoOrder : Type where
  id : String
  userId : String
  items : List OrderItem
  totalAmount : ℚ
  status : OrderStatus
  user : Option User
  createdAt : Nat
  updatedAt : Nat
  paymentInfo : PaymentInfo
  shippingInfo : ShippingInfo
  deriving DecidableEq, Repr

/-- Embedding of `convertToProtoOrder` (`order.go`): copy every aggregate
field and attach the given user snapshot; the proto shipping info carries
only the address fields, so its status is left at the wire zero value. -/
def convertToProtoOrder (order : Order) (user : Option User) : ProtoOrder :=
  ⟨order.id, order.userID, order.items, order.totalAmount, order.status,
    user, order.createdAt, order.updatedAt, order.paymentInfo,
    ⟨order.shippingInfo.addressLine1, order.shippingInfo.addressLine2,
      order.shippingInfo.city, order.shippingInfo.state,
      order.shippingInfo.country, order.shippingInfo.postalCode,
      .unspecified⟩⟩

/-- Embedding of `OrderHandler.GetOrder` (`order.go`): read the aggregate,
mapping `sql.ErrNoRows` to NotFound and any other repository error to
Internal, then fetch the user snapshot (any failure is Internal). -/
def handlerGetOrder (db : Db) (userDir : String → Except GrpcErr User)
    (orderID : String) : Except GrpcErr ProtoOrder :=
  match repoGetOrder db orderID with
  | .error .errNoRows => .error ⟨.notFound, "order not found"⟩
  | .error _ => .error ⟨.internal, "failed to get order"⟩
  | .ok order =>
    match userDir order.userID with
    | .error _ => .error ⟨.internal, "failed to get user details"⟩
    | .ok u => .ok (convertToProtoOrder order (some u))

/-- Embedding of `OrderHandler.UpdateOrderStatus` (`order.go`): load the
order (`sql.ErrNoRows` maps to NotFound), run the persistence update with
the requested status — the handler consults no transition table — then
overwrite the in-memory status and update timestamp and re-fetch the user
snapshot for the response. The resulting store is returned alongside. -/
def handlerUpdateOrderStatus (db : Db)
    (userDir : String → Except GrpcErr User) (orderID : String)
    (newStatus : OrderStatus) (now : Nat) :
    Except GrpcErr ProtoOrder × Db :=
  match repoGetOrder db orderID with
  | .error .errNoRows => (.error ⟨.notFound, "order not found"⟩, db)
  | .error _ => (.error ⟨.internal, "failed to get order"⟩, db)
  | .ok order =>
    match repoUpdateOrderStatus db orderID newStatus now with
    | .error _ => (.error ⟨.internal, "failed to update order status"⟩, db)
    | .ok db' =>
      let order' := { order with status := newStatus, updatedAt := now }
      match userDir order'.userID with
      | .error _ => (.error ⟨.internal, "failed to get user details"⟩, db')
      | .ok u => (.ok (convertToProtoOrder order' (some u)), db')

/-! ## Helper lemmas about reads and status updates -/

/-- A successful aggregate read means a header row with that id exists. -/
theorem repoGetOrder_ok_mem (db : Db) (id : String) (order : Order)
    (h : repoGetOrder db id = .ok order) : ∃ r ∈ db.orders, r.id = id := by
  unfold repoGetOrder at h
  rcases hf : db.orders.find? (fun r => decide (r.id = id)) with _ | r
  · rw [hf] at h; cases h
  · exact ⟨r, List.mem_of_find?_eq_some hf,
      by simpa using List.find?_some hf⟩

/-- The persistence status update succeeds whenever a matching row
exists, and then maps `updateStatusRow` over the header table. -/
theorem repoUpdateOrderStatus_eq_ok (db : Db) (id : String)
    (st : OrderStatus) (now : Nat) (h : ∃ r ∈ db.orders, r.id = id) :
    repoUpdateOrderStatus db id st now =
      .ok ⟨db.orders.map (updateStatusRow id st now), db.orderItems,
        db.paymentInfos, db.shippingInfos⟩ := by
  rcases h with ⟨r, hr, he⟩
  have hz : db.orders.countP (fun r => decide (r.id = id)) ≠ 0 := by
    intro h0
    rw [List.countP_eq_zero] at h0
    exact absurd he (by simpa using h0 r hr)
  simp [repoUpdateOrderStatus, hz]

/-- Counterexample for C7: with a header row for "o1" but no payment row,
`GetOrder` reports plain NotFound "order not found" — byte-for-byte the
same error as when the header itself is absent — instead of a distinct
corruption error. -/
theorem handlerGetOrder_corruption_counterexample :
    handlerGetOrder ⟨[⟨"o1", "u1", .pending, 10, 1, 1⟩], [], [], []⟩
        (fun _ => .ok ⟨"u1", "e", "n"⟩) "o1" =
      .error ⟨.notFound, "order not found"⟩ ∧
    handlerGetOrder ⟨[], [], [], []⟩
        (fun _ => .ok ⟨"u1", "e", "n"⟩) "o1" =
      .error ⟨.notFound, "order not found"⟩ :=
  ⟨rfl, rfl⟩

/-- **C7 (amended).** Absence of the header row yields NotFound; absence
of the payment row — or of the shipping row when the payment row exists —
for an existing header yields the very same NotFound "order not found"
error, not a distinct corruption error. -/
theorem handlerGetOrder_notFound_paths (db : Db)
    (userDir : String → Except GrpcErr User) (id : String) :
    (db.orders.find? (fun r => decide (r.id = id)) = none →
      handlerGetOrder db userDir id =
        .error ⟨.notFound, "order not found"⟩) ∧
    (∀ h, db.orders.find? (fun r => decide (r.id = id)) = some h →
      (db.paymentInfos.find? (fun r => decide (r.orderID = id)) = none ∨
        (∃ p, db.paymentInfos.find? (fun r => decide (r.orderID = id)) =
            some p ∧
          db.shippingInfos.find? (fun r => decide (r.orderID = id)) =
            none)) →
      handlerGetOrder db userDir id =
        .error ⟨.notFound, "order not found"⟩) := by
  constructor
  · intro hf
    have hg : repoGetOrder db id = .error .errNoRows := by
      unfold repoGetOrder
      simp only [hf]
    unfold handlerGetOrder
    simp only [hg]
  · intro h hf hcase
    rcases hcase with hp | ⟨p, hp, hs⟩
    · have hg : repoGetOrder db id = .error .errNoRows := by
        unfold repoGetOrder
        simp only [hf, hp]
      unfold handlerGetOrder
      simp only [hg]
    · have hg : repoGetOrder db id = .error .errNoRows := by
        unfold repoGetOrder
        simp only [hf, hp, hs]
      unfold handlerGetOrder
      simp only [hg]

/-- Witness for C7 (amended): both NotFound paths at concrete stores —
a store with no header, and a store with a header and payment row but no
shipping row. -/
theorem handlerGetOrder_notFound_paths_witness :
    handlerGetOrder ⟨[], [], [], []⟩ (fun _ => .ok ⟨"u1", "e", "n"⟩)
        "o9" = .error ⟨.notFound, "order not found"⟩ ∧
    handlerGetOrder
        ⟨[⟨"o2", "u1", .pending, 4, 1, 1⟩], [],
          [⟨"pr", "o2", "pay", .pending, .creditCard, 0⟩], []⟩
        (fun _ => .ok ⟨"u1", "e", "n"⟩) "o2" =
      .error ⟨.notFound, "order not found"⟩ := by
  constructor
  · exact (handlerGetOrder_notFound_paths ⟨[], [], [], []⟩
      (fun _ => .ok ⟨"u1", "e", "n"⟩) "o9").1 rfl
  · exact (handlerGetOrder_notFound_paths
      ⟨[⟨"o2", "u1", .pending, 4, 1, 1⟩], [],
        [⟨"pr", "o2", "pay", .pending, .creditCard, 0⟩], []⟩
      (fun _ => .ok ⟨"u1", "e", "n"⟩) "o2").2
      ⟨"o2", "u1", .pending, 4, 1, 1⟩ rfl
      (Or.inr ⟨⟨"pr", "o2", "pay", .pending, .creditCard, 0⟩, rfl, rfl⟩)

/-- Counterexample for C3: an order in the terminal state `completed` is
updated to `processing` without any conflict error — the handler consults
no transition table — and the storage write goes through. -/
theorem handlerUpdateOrderStatus_counterexample :
    (handlerUpdateOrderStatus
        ⟨[⟨"o1", "u1", .completed, 10, 1, 1⟩], [],
          [⟨"pr", "o1", "pay", .pending, .creditCard, 0⟩],
          [⟨"sr", "o1", "l1", "", "c", "s", "cy", "z", .pending⟩]⟩
        (fun _ => .ok ⟨"u1", "e", "n"⟩) "o1" .processing 9).1 =
      .ok ⟨"o1", "u1", [], 10, .processing, some ⟨"u1", "e", "n"⟩, 1, 9,
        ⟨"pay", .pending, .creditCard, 0⟩,
        ⟨"l1", "", "c", "s", "cy", "z", .unspecified⟩⟩ ∧
    (handlerUpdateOrderStatus
        ⟨[⟨"o1", "u1", .completed, 10, 1, 1⟩], [],
          [⟨"pr", "o1", "pay", .pending, .creditCard, 0⟩],
          [⟨"sr", "o1", "l1", "", "c", "s", "cy", "z", .pending⟩]⟩
        (fun _ => .ok ⟨"u1", "e", "n"⟩) "o1" .processing 9).2.orders =
      [⟨"o1", "u1", .processing, 10, 1, 9⟩] :=
  ⟨rfl, rfl⟩

/-- **C3 (amended).** When the order does not exist the call fails with
NotFound and the store is untouched; when the order loads and the user
directory answers, the requested status is written unconditionally — the
handler performs no transition-table check, terminal states included —
and a fresh user snapshot is fetched for the response. -/
theorem handlerUpdateOrderStatus_behavior (db : Db)
    (userDir : String → Except GrpcErr User) (id : String)
    (st : OrderStatus) (now : Nat) :
    (db.orders.find? (fun r => decide (r.id = id)) = none →
      handlerUpdateOrderStatus db userDir id st now =
        (.error ⟨.notFound, "order not found"⟩, db)) ∧
    (∀ order u, repoGetOrder db id = .ok order →
      userDir order.userID = .ok u →
      handlerUpdateOrderStatus db userDir id st now =
        (.ok (convertToProtoOrder
            { order with status := st, updatedAt := now } (some u)),
          ⟨db.orders.map (updateStatusRow id st now), db.orderItems,
            db.paymentInfos, db.shippingInfos⟩)) := by
  constructor
  · intro hf
    have hg : repoGetOrder db id = .error .errNoRows := by
      unfold repoGetOrder
      simp only [hf]
    unfold handlerUpdateOrderStatus
    simp only [hg]
  · intro order u hg hu
    have hupd := repoUpdateOrderStatus_eq_ok db id st now
      (repoGetOrder_ok_mem db id order hg)
    unfold handlerUpdateOrderStatus
    simp only [hg, hupd, hu]

/-- Witness for C3 (amended): a pending order at a concrete store is
moved to processing; the write lands and the response carries the fresh
snapshot. -/
theorem handlerUpdateOrderStatus_behavior_witness :
    handlerUpdateOrderStatus
        ⟨[⟨"o1", "u1", .pending, 10, 1, 1⟩], [],
          [⟨"pr", "o1", "pay", .pending, .creditCard, 0⟩],
          [⟨"sr", "o1", "l1", "", "c", "s", "cy", "z", .pending⟩]⟩
        (fun _ => .ok ⟨"u1", "e", "n"⟩) "o1" .processing 9 =
      (.ok ⟨"o1", "u1", [], 10, .processing, some ⟨"u1", "e", "n"⟩, 1, 9,
          ⟨"pay", .pending, .creditCard, 0⟩,
          ⟨"l1", "", "c", "s", "cy", "z", .unspecified⟩⟩,
        ⟨[⟨"o1", "u1", .processing, 10, 1, 9⟩], [],
          [⟨"pr", "o1", "pay", .pending, .creditCard, 0⟩],
          [⟨"sr", "o1", "l1", "", "c", "s", "cy", "z", .pending⟩]⟩) := by
  rw [(handlerUpdateOrderStatus_behavior
      ⟨[⟨"o1", "u1", .pending, 10, 1, 1⟩], [],
        [⟨"pr", "o1", "pay", .pending, .creditCard, 0⟩],
        [⟨"sr", "o1", "l1", "", "c", "s", "cy", "z", .pending⟩]⟩
      (fun _ => .ok ⟨"u1", "e", "n"⟩) "o1" .processing 9).2
    ⟨"o1", "u1", [], 10, .pending, ⟨"pay", .pending, .creditCard, 0⟩,
      ⟨"l1", "", "c", "s", "cy", "z", .pending⟩, 1, 1⟩
    ⟨"u1", "e", "n"⟩ rfl rfl]
  rfl

/-! ## Listing with pagination (`orderRepository.ListOrders`) -/

/-- The `ORDER BY created_at DESC` comparison on header rows. -/
def createdGe (a b : OrderRow) : Prop := b.createdAt ≤ a.createdAt

instance : DecidableRel createdGe := fun a b => Nat.decLe b.createdAt a.createdAt

instance : IsTotal OrderRow createdGe :=
  ⟨fun a b => (Nat.le_total b.createdAt a.createdAt).elim Or.inl Or.inr⟩

instance : IsTrans OrderRow createdGe :=
  ⟨fun _ _ _ h1 h2 => Nat.le_trans h2 h1⟩

/-- The `WHERE o.user_id = ? AND o.status = ?` filter. -/
def filterRows (db : Db) (userID : String) (st : OrderStatus) :
    List OrderRow :=
  db.orders.filter
    (fun r => decide (r.userID = userID) && decide (r.status = st))

/-- The header rows selected by the list query: filter, sort by creation
timestamp descending, then apply `LIMIT pageSize OFFSET
pageSize*len(pageToken)` — the offset is computed from the LENGTH of the
page token, exactly as in the source. -/
def selectRows (db : Db) (userID : String) (st : OrderStatus)
    (pageSize : Nat) (pageToken : String) : List OrderRow :=
  ((List.insertionSort createdGe (filterRows db userID st)).drop
    (pageSize * pageToken.length)).take pageSize

/-- An order assembled from just its header row, before the item, payment
and shipping passes fill in the rest. -/
def rowToOrder (r : OrderRow) : Order :=
  ⟨r.id, r.userID, [], r.totalAmount, r.status,
    ⟨"", .unspecified, .unspecified, 0⟩,
    ⟨"", "", "", "", "", "", .unspecified⟩, r.createdAt, r.updatedAt⟩

/-- First assembly pass: attach each order's item rows (an order with no
item rows just gets the empty list — no error). -/
def attachItems (db : Db) (os : List Order) : List Order :=
  os.map (fun o =>
    let its :=
      (db.orderItems.filter (fun r => decide (r.orderID = o.id))).map
        (fun r => OrderItem.mk r.productID r.quantity r.unitPrice
          r.productName)
    { o with items := its })

/-- Second assembly pass: attach each order's payment row via a
single-row query; a missing row fails the whole call with
`sql.ErrNoRows`. -/
def attachPayments (db : Db) : List Order → Except SqlError (List Order)
  | [] => .ok []
  | o :: rest =>
    match db.paymentInfos.find? (fun r => decide (r.orderID = o.id)) with
    | none => .error .errNoRows
    | some p =>
      match attachPayments db rest with
      | .error e => .error e
      | .ok os =>
          .ok ({ o with paymentInfo :=
            ⟨p.paymentID, p.status, p.method, p.processedAt⟩ } :: os)

/-- Third assembly pass: attach each order's shipping row, failing with
`sql.ErrNoRows` when absent. -/
def attachShippings (db : Db) : List Order → Except SqlError (List Order)
  | [] => .ok []
  | o :: rest =>
    match db.shippingInfos.find? (fun r => decide (r.orderID = o.id)) with
    | none => .error .errNoRows
    | some s =>
      match attachShippings db rest with
      | .error e => .error e
      | .ok os =>
          .ok ({ o with shippingInfo :=
            ⟨s.addressLine1, s.addressLine2, s.city, s.state, s.country,
              s.postalCode, s.status⟩ } :: os)

/-- Embedding of `orderRepository.ListOrders` (`order.go`): select the
page of header rows, run the three assembly passes, and return the page
together with the next-page token — which the source always returns as
the empty string. -/
def repoListOrders (db : Db) (userID : String) (st : OrderStatus)
    (pageSize : Nat) (pageToken : String) :
    Except SqlError (List Order × String) :=
  match attachPayments db
      (attachItems db ((selectRows db userID st pageSize pageToken).map
        rowToOrder)) with
  | .error e => .error e
  | .ok os2 =>
    match attachShippings db os2 with
    | .error e => .error e
    | .ok os3 => .ok (os3, "")

/-- The payment pass preserves the creation timestamps, in order. -/
theorem attachPayments_map_createdAt (db : Db) :
    ∀ (os os' : List Order), attachPayments db os = .ok os' →
      os'.map Order.createdAt = os.map Order.createdAt := by
  intro os
  induction os with
  | nil =>
      intro os' h
      rw [attachPayments] at h
      cases h
      rfl
  | cons o rest ih =>
      intro os' h
      rw [attachPayments] at h
      rcases hf : db.paymentInfos.find?
          (fun r => decide (r.orderID = o.id)) with _ | p
      · rw [hf] at h; cases h
      · rw [hf] at h
        rcases hrest : attachPayments db rest with e | os2
        · rw [hrest] at h; cases h
        · rw [hrest] at h
          cases h
          simp [ih os2 hrest]

/-- The shipping pass preserves the creation timestamps, in order. -/
theorem attachShippings_map_createdAt (db : Db) :
    ∀ (os os' : List Order), attachShippings db os = .ok os' →
      os'.map Order.createdAt = os.map Order.createdAt := by
  intro os
  induction os with
  | nil =>
      intro os' h
      rw [attachShippings] at h
      cases h
      rfl
  | cons o rest ih =>
      intro os' h
      rw [attachShippings] at h
      rcases hf : db.shippingInfos.find?
          (fun r => decide (r.orderID = o.id)) with _ | s
      · rw [hf] at h; cases h
      · rw [hf] at h
        rcases hrest : attachShippings db rest with e | os2
        · rw [hrest] at h; cases h
        · rw [hrest] at h
          cases h
          simp [ih os2 hrest]

/-- The item pass and the header assembly preserve the creation
timestamps, in order. -/
theorem attachItems_map_createdAt (db : Db) (rows : List OrderRow) :
    (attachItems db (rows.map rowToOrder)).map Order.createdAt =
      rows.map OrderRow.createdAt := by
  simp [attachItems, List.map_map]
  intro a _
  rfl

/-- The selected page of header rows is sorted by creation timestamp,
descending. -/
theorem selectRows_pairwise (db : Db) (userID : String) (st : OrderStatus)
    (pageSize : Nat) (pageToken : String) :
    (selectRows db userID st pageSize pageToken).Pairwise createdGe := by
  have h1 : (selectRows db userID st pageSize pageToken).Sublist
      (List.insertionSort createdGe (filterRows db userID st)) :=
    (List.take_sublist _ _).trans (List.drop_sublist _ _)
  exact (List.sorted_insertionSort createdGe _).sublist h1

/-- A demonstration store: three fully-assembled orders for user "u1"
with creation timestamps 1, 2, 3. -/
def listDemoDb : Db :=
  ⟨[⟨"o1", "u1", .pending, 10, 1, 1⟩, ⟨"o2", "u1", .pending, 20, 2, 2⟩,
      ⟨"o3", "u1", .pending, 30, 3, 3⟩],
    [],
    [⟨"pr1", "o1", "pay1", .pending, .creditCard, 0⟩,
      ⟨"pr2", "o2", "pay2", .pending, .creditCard, 0⟩,
      ⟨"pr3", "o3", "pay3", .pending, .creditCard, 0⟩],
    [⟨"sr1", "o1", "l1", "", "c", "s", "cy", "z", .pending⟩,
      ⟨"sr2", "o2", "l2", "", "c", "s", "cy", "z", .pending⟩,
      ⟨"sr3", "o3", "l3", "", "c", "s", "cy", "z", .pending⟩]⟩

/-- The most recent order of `listDemoDb`, as assembled by the list
query. -/
def listDemoTop : Order :=
  ⟨"o3", "u1", [], 30, .pending, ⟨"pay3", .pending, .creditCard, 0⟩,
    ⟨"l3", "", "c", "s", "cy", "z", .pending⟩, 3, 3⟩

/-- Counterexample for C8: listing three existing orders with
`pageSize = 1` does return exactly the most recently created order, but
the continuation token is the EMPTY string — the repository always
returns "" as the next-page token. -/
theorem repoListOrders_token_counterexample :
    repoListOrders listDemoDb "u1" .pending 1 "" =
      .ok ([listDemoTop], "") ∧
    ¬ ∃ os ntok, repoListOrders listDemoDb "u1" .pending 1 "" =
        .ok (os, ntok) ∧ ntok ≠ "" := by
  refine ⟨rfl, ?_⟩
  rintro ⟨os, ntok, heq, hne⟩
  rw [show repoListOrders listDemoDb "u1" .pending 1 "" =
      .ok ([listDemoTop], "") from rfl] at heq
  cases heq
  exact hne rfl

/-- **C8 (amended).** Every successful list call returns its page ordered
by creation timestamp descending, but the next-page token is always the
empty string; an empty page token does start from the beginning, while a
non-empty token merely offsets by `pageSize * length(token)`. -/
theorem repoListOrders_props (db : Db) (uid : String) (st : OrderStatus)
    (ps : Nat) (tok : String) :
    (∀ orders ntok,
      repoListOrders db uid st ps tok = .ok (orders, ntok) →
      ntok = "" ∧
      (orders.map Order.createdAt).Pairwise (fun a b => b ≤ a)) ∧
    selectRows db uid st ps "" =
      (List.insertionSort createdGe (filterRows db uid st)).take ps := by
  constructor
  · intro orders ntok h
    unfold repoListOrders at h
    rcases hp : attachPayments db
        (attachItems db ((selectRows db uid st ps tok).map rowToOrder))
      with e | os2
    · simp only [hp] at h; cases h
    · simp only [hp] at h
      rcases hs : attachShippings db os2 with e | os3
      · simp only [hs] at h; cases h
      · simp only [hs] at h
        cases h
        refine ⟨rfl, ?_⟩
        rw [attachShippings_map_createdAt db os2 orders hs,
          attachPayments_map_createdAt db _ os2 hp,
          attachItems_map_createdAt db (selectRows db uid st ps tok),
          List.pairwise_map]
        exact selectRows_pairwise db uid st ps tok
  · simp [selectRows]

/-- Witness for C8 (amended): at the three-order demonstration store with
`pageSize = 1`, the page is `[listDemoTop]`, the token is empty, and the
one-element timestamp list is descending. -/
theorem repoListOrders_props_witness :
    ("" : String) = "" ∧
    (([listDemoTop] : List Order).map Order.createdAt).Pairwise
      (fun a b => b ≤ a) :=
  (repoListOrders_props listDemoDb "u1" .pending 1 "").1 [listDemoTop] ""
    rfl

/-- Embedding of `OrderHandler.ListOrders` (`order.go`): run the
repository list; when the page is non-empty, fetch the user snapshot for
the FIRST order's user id and attach it to every order of the page; when
the page is empty, perform no user lookup. The second component records
the user-directory calls made. -/
def handlerListOrders (db : Db) (userDir : String → Except GrpcErr User)
    (userID : String) (st : OrderStatus) (pageSize : Nat)
    (pageToken : String) :
    Except GrpcErr (List ProtoOrder × String) × List String :=
  match repoListOrders db userID st pageSize pageToken with
  | .error _ => (.error ⟨.internal, "failed to list orders"⟩, [])
  | .ok (orders, ntok) =>
    match orders with
    | [] => (.ok ([], ntok), [])
    | o0 :: rest =>
      match userDir o0.userID with
      | .error _ =>
          (.error ⟨.internal, "failed to get user details"⟩, [o0.userID])
      | .ok u =>
          (.ok ((o0 :: rest).map (fun o => convertToProtoOrder o (some u)),
            ntok), [o0.userID])

/-- **C10.** On a non-empty page the handler queries the user directory
exactly once, for the first order's user id, and attaches that same
snapshot to every order of the response; on an empty page it performs no
user lookup at all. -/
theorem handlerListOrders_snapshot (db : Db)
    (userDir : String → Except GrpcErr User) (uid : String)
    (st : OrderStatus) (ps : Nat) (tok : String) :
    (∀ o0 rest ntok u,
      repoListOrders db uid st ps tok = .ok (o0 :: rest, ntok) →
      userDir o0.userID = .ok u →
      handlerListOrders db userDir uid st ps tok =
        (.ok ((o0 :: rest).map (fun o => convertToProtoOrder o (some u)),
          ntok), [o0.userID]) ∧
      ∀ po ∈ (o0 :: rest).map (fun o => convertToProtoOrder o (some u)),
        po.user = some u) ∧
    (∀ ntok, repoListOrders db uid st ps tok = .ok ([], ntok) →
      handlerListOrders db userDir uid st ps tok = (.ok ([], ntok), [])) := by
  constructor
  · intro o0 rest ntok u hrepo hu
    constructor
    · unfold handlerListOrders
      simp only [hrepo, hu]
    · intro po hpo
      rcases List.mem_map.mp hpo with ⟨o, _, rfl⟩
      rfl
  · intro ntok hrepo
    unfold handlerListOrders
    simp only [hrepo]

/-- Witness for C10: at the demonstration store with `pageSize = 1`, the
directory is called once for "u1" and the single returned order carries
the snapshot. -/
theorem handlerListOrders_snapshot_witness :
    handlerListOrders listDemoDb (fun _ => .ok ⟨"u1", "e", "n"⟩) "u1"
        .pending 1 "" =
      (.ok ([⟨"o3", "u1", [], 30, .pending, some ⟨"u1", "e", "n"⟩, 3, 3,
          ⟨"pay3", .pending, .creditCard, 0⟩,
          ⟨"l3", "", "c", "s", "cy", "z", .unspecified⟩⟩], ""),
        ["u1"]) := by
  have h := (handlerListOrders_snapshot listDemoDb
    (fun _ => .ok ⟨"u1", "e", "n"⟩) "u1" .pending 1 "").1 listDemoTop []
    "" ⟨"u1", "e", "n"⟩ rfl rfl
  rw [h.1]
  rfl

/-! ## Order creation: gRPC handler (`order.go`) and internal service
(`order_service.go`) -/

/-- A `CreateOrder` request: user id, items, shipping address, payment
method. -/
structure CreateOrderRequest : Type where
  userId : String
  items : List OrderItem
  shippingInfo : ShippingInfo
  paymentMethod : PaymentMethod
  deriving DecidableEq, Repr

/-- The total-amount loop of `OrderHandler.CreateOrder`: accumulate
`unit_price * quantity` over the items — as with `computeTotalAmount`,
an exact-rational placeholder for the threaded amount value; the
float64 arithmetic of this loop is modelled by `handlerTotalAmountF64`
below. -/
def handlerTotalAmount (items : List OrderItem) : ℚ :=
  items.foldl (fun acc it => acc + it.unitPrice * (it.quantity : ℚ)) 0

/-- The aggregate built by `OrderHandler.CreateOrder`: fresh order id and
payment id, pending statuses, the request's address, the computed total,
`time.Now()` timestamps. -/
def handlerBuiltOrder (req : CreateOrderRequest) (uuids : Nat → String)
    (now : Nat) : Order :=
  ⟨uuids 0, req.userId, req.items, handlerTotalAmount req.items, .pending,
    ⟨uuids 1, .pending, req.paymentMethod, 0⟩,
    ⟨req.shippingInfo.addressLine1, req.shippingInfo.addressLine2,
      req.shippingInfo.city, req.shippingInfo.state,
      req.shippingInfo.country, req.shippingInfo.postalCode, .pending⟩,
    now, now⟩

/-- Embedding of `OrderHandler.CreateOrder` (`order.go`): verify the user
first — a NotFound answer from the directory is surfaced as
InvalidArgument "user not found", any other directory failure as Internal
— then build the aggregate and run the creation transaction, surfacing a
transaction failure as Internal. The resulting store is returned
alongside. -/
def handlerCreateOrder (db : Db) (userDir : String → Except GrpcErr User)
    (req : CreateOrderRequest) (uuids : Nat → String) (now : Nat)
    (oracle : List Bool) : Except GrpcErr ProtoOrder × Db :=
  match userDir req.userId with
  | .error e =>
    if e.code = .notFound then
      (.error ⟨.invalidArgument, "user not found"⟩, db)
    else (.error ⟨.internal, "failed to verify user"⟩, db)
  | .ok user =>
    match repoCreateOrder db (handlerBuiltOrder req uuids now)
        (fun n => uuids (n + 2)) now oracle with
    | (.error _, db') => (.error ⟨.internal, "failed to create order"⟩, db')
    | (.ok _, db') =>
        (.ok (convertToProtoOrder (handlerBuiltOrder req uuids now)
          (some user)), db')

/-- Counterexample for C4: when the directory reports the user as not
found, the handler rejects with InvalidArgument, not NotFound. -/
theorem handlerCreateOrder_notFound_counterexample :
    (handlerCreateOrder ⟨[], [], [], []⟩
        (fun _ => .error ⟨.notFound, "user not found"⟩)
        ⟨"u1", [⟨"p1", 1, 5, "A"⟩],
          ⟨"l1", "", "c", "s", "cy", "z", .unspecified⟩, .creditCard⟩
        (fun n => Nat.repr n) 7 []).1 =
      .error ⟨.invalidArgument, "user not found"⟩ ∧
    Code.invalidArgument ≠ Code.notFound :=
  ⟨rfl, by decide⟩

/-- **C4 (amended).** A creation request whose user the directory reports
as not found fails with InvalidArgument "user not found", while any other
directory failure yields Internal — the two are distinguished — and in
both cases the store is returned unchanged: nothing is committed. -/
theorem handlerCreateOrder_userLookup (db : Db)
    (userDir : String → Except GrpcErr User) (req : CreateOrderRequest)
    (uuids : Nat → String) (now : Nat) (oracle : List Bool) :
    (∀ msg, userDir req.userId = .error ⟨.notFound, msg⟩ →
      handlerCreateOrder db userDir req uuids now oracle =
        (.error ⟨.invalidArgument, "user not found"⟩, db)) ∧
    (∀ c msg, c ≠ .notFound → userDir req.userId = .error ⟨c, msg⟩ →
      handlerCreateOrder db userDir req uuids now oracle =
        (.error ⟨.internal, "failed to verify user"⟩, db)) := by
  constructor
  · intro msg h
    unfold handlerCreateOrder
    simp only [h]
    simp
  · intro c msg hc h
    unfold handlerCreateOrder
    simp only [h]
    simp [hc]

/-- Witness for C4 (amended): concrete directories answering NotFound and
Unavailable against an empty store. -/
theorem handlerCreateOrder_userLookup_witness :
    handlerCreateOrder ⟨[], [], [], []⟩
        (fun _ => .error ⟨.notFound, "no user"⟩)
        ⟨"u1", [⟨"p1", 1, 5, "A"⟩],
          ⟨"l1", "", "c", "s", "cy", "z", .unspecified⟩, .creditCard⟩
        (fun n => Nat.repr n) 7 [] =
      (.error ⟨.invalidArgument, "user not found"⟩, ⟨[], [], [], []⟩) ∧
    handlerCreateOrder ⟨[], [], [], []⟩
        (fun _ => .error ⟨.unavailable, "down"⟩)
        ⟨"u1", [⟨"p1", 1, 5, "A"⟩],
          ⟨"l1", "", "c", "s", "cy", "z", .unspecified⟩, .creditCard⟩
        (fun n => Nat.repr n) 7 [] =
      (.error ⟨.internal, "failed to verify user"⟩, ⟨[], [], [], []⟩) := by
  constructor
  · exact (handlerCreateOrder_userLookup ⟨[], [], [], []⟩
      (fun _ => .error ⟨.notFound, "no user"⟩)
      ⟨"u1", [⟨"p1", 1, 5, "A"⟩],
        ⟨"l1", "", "c", "s", "cy", "z", .unspecified⟩, .creditCard⟩
      (fun n => Nat.repr n) 7 []).1 "no user" rfl
  · exact (handlerCreateOrder_userLookup ⟨[], [], [], []⟩
      (fun _ => .error ⟨.unavailable, "down"⟩)
      ⟨"u1", [⟨"p1", 1, 5, "A"⟩],
        ⟨"l1", "", "c", "s", "cy", "z", .unspecified⟩, .creditCard⟩
      (fun n => Nat.repr n) 7 []).2 .unavailable "down" (by decide) rfl

/-- The per-item loop of `validateCreateOrderRequest`
(`order_service.go`): the first item with a non-positive quantity, or
failing that a non-positive unit price, aborts with InvalidArgument. -/
def validateItems : List OrderItem → Except GrpcErr Unit
  | [] => .ok ()
  | it :: rest =>
    if it.quantity ≤ 0 then
      .error ⟨.invalidArgument, "item quantity must be positive"⟩
    else if it.unitPrice ≤ 0 then
      .error ⟨.invalidArgument, "item unit price must be positive"⟩
    else validateItems rest

/-- Embedding of `validateCreateOrderRequest` (`order_service.go`): a
non-empty user id, then a non-empty item list, then the per-item checks —
first failure wins. The source checks NO upper bound on the number of
items and NO upper bound on quantities. -/
def validateCreateOrderRequest (req : CreateOrderRequest) :
    Except GrpcErr Unit :=
  if req.userId = "" then
    .error ⟨.invalidArgument, "user_id is required"⟩
  else if req.items.length = 0 then
    .error ⟨.invalidArgument, "order must contain at least one item"⟩
  else validateItems req.items

/-- One observable side effect of the internal order service: a user
directory call or a repository create. -/
inductive Effect : Type
  | userCall (id : String)
  | repoCreate (o : ProtoOrder)
  deriving DecidableEq, Repr

/-- The total-amount goroutine of `OrderService.CreateOrder`: accumulate
`quantity * unit_price` over the items. The accumulation is kept in exact
rationals here only to thread an amount value through the service
embedding; the floating-point behaviour of this loop is modelled
faithfully by `handlerTotalAmountF64` below and is NOT settled through
this definition. -/
def computeTotalAmount (items : List OrderItem) : ℚ :=
  items.foldl (fun sum it => sum + (it.quantity : ℚ) * it.unitPrice) 0

/-- Embedding of `OrderService.CreateOrder` (`order_service.go`):
validate the request first; then the user fetch and the total
computation run as a joined pair, any user-directory failure surfacing
as Internal; then the aggregate is built (payment pending with the
requested method, the request's shipping info as-is) and handed to the
injected repository, whose failure surfaces as Internal. The second
component logs the I/O effects performed, in order. `serviceBuiltOrder`
is the aggregate built after the join. -/
def serviceBuiltOrder (req : CreateOrderRequest) (uuid0 : String)
    (now : Nat) (user : User) : ProtoOrder :=
  ⟨uuid0, req.userId, req.items, computeTotalAmount req.items, .pending,
    some user, now, now, ⟨"", .pending, req.paymentMethod, 0⟩,
    req.shippingInfo⟩

/-- Embedding of the wiring of `OrderService.CreateOrder`. -/
def serviceCreateOrder (userDir : String → Except GrpcErr User)
    (repoCreate : ProtoOrder → Except GrpcErr Unit)
    (req : CreateOrderRequest) (uuid0 : String) (now : Nat) :
    Except GrpcErr ProtoOrder × List Effect :=
  match validateCreateOrderRequest req with
  | .error e => (.error e, [])
  | .ok _ =>
    match userDir req.userId with
    | .error _ =>
        (.error ⟨.internal, "failed to get user details"⟩,
          [.userCall req.userId])
    | .ok user =>
      match repoCreate (serviceBuiltOrder req uuid0 now user) with
      | .error _ =>
          (.error ⟨.internal, "failed to create order"⟩,
            [.userCall req.userId,
              .repoCreate (serviceBuiltOrder req uuid0 now user)])
      | .ok _ =>
          (.ok (serviceBuiltOrder req uuid0 now user),
            [.userCall req.userId,
              .repoCreate (serviceBuiltOrder req uuid0 now user)])

/-- Counterexample for C5: an item with quantity 101 — outside the
claimed range `[1,100]` — passes validation; the source checks only
positivity. -/
theorem validateCreateOrderRequest_counterexample :
    validateCreateOrderRequest
        ⟨"u1", [⟨"p1", 101, 1, "A"⟩],
          ⟨"l1", "", "c", "s", "cy", "z", .unspecified⟩, .creditCard⟩ =
      .ok () ∧
    ¬ ((101 : Int) ≤ 100) :=
  ⟨rfl, by decide⟩

/-- The item loop accepts exactly the lists whose items all have positive
quantity and positive unit price. -/
theorem validateItems_ok_iff (items : List OrderItem) :
    validateItems items = .ok () ↔
      ∀ it ∈ items, 1 ≤ it.quantity ∧ 0 < it.unitPrice := by
  induction items with
  | nil => simp [validateItems]
  | cons it rest ih =>
      by_cases hq : it.quantity ≤ 0
      · simp [validateItems, hq]
        intro h1
        omega
      · by_cases hp : it.unitPrice ≤ 0
        · simp [validateItems, hq, hp]
        · have h1 : 1 ≤ it.quantity := by omega
          have h2 : 0 < it.unitPrice := not_le.mp hp
          simp [validateItems, hq, hp, ih, h1, h2]

/-- Every rejection of the item loop is an InvalidArgument error. -/
theorem validateItems_error_code (items : List OrderItem) :
    ∀ e, validateItems items = .error e → e.code = .invalidArgument := by
  induction items with
  | nil => intro e h; rw [validateItems] at h; cases h
  | cons it rest ih =>
      intro e h
      rw [validateItems] at h
      by_cases hq : it.quantity ≤ 0
      · rw [if_pos hq] at h; cases h; rfl
      · rw [if_neg hq] at h
        by_cases hp : it.unitPrice ≤ 0
        · rw [if_pos hp] at h; cases h; rfl
        · rw [if_neg hp] at h
          exact ih e h

/-- **C5 (amended).** Validation runs before any I/O with InvalidArgument
errors, checked in order with the first failure winning: (1) non-empty
user id, (2) non-empty item list, (3) every item has positive quantity
and positive unit price — with no upper bound on the item count or the
quantities. A request failing validation is rejected with an empty effect
log: no user-directory call and no store write. -/
theorem validateCreateOrderRequest_behavior (req : CreateOrderRequest) :
    (validateCreateOrderRequest req = .ok () ↔
      req.userId ≠ "" ∧ req.items ≠ [] ∧
        ∀ it ∈ req.items, 1 ≤ it.quantity ∧ 0 < it.unitPrice) ∧
    (req.userId = "" →
      validateCreateOrderRequest req =
        .error ⟨.invalidArgument, "user_id is required"⟩) ∧
    (req.userId ≠ "" → req.items = [] →
      validateCreateOrderRequest req =
        .error ⟨.invalidArgument, "order must contain at least one item"⟩) ∧
    (∀ e, validateCreateOrderRequest req = .error e →
      e.code = .invalidArgument) ∧
    (∀ userDir repoCreate uuid0 now e,
      validateCreateOrderRequest req = .error e →
      serviceCreateOrder userDir repoCreate req uuid0 now =
        (.error e, [])) := by
  refine ⟨?_, ?_, ?_, ?_, ?_⟩
  · by_cases hu : req.userId = ""
    · simp [validateCreateOrderRequest, hu]
    · by_cases hi : req.items.length = 0
      · rw [List.length_eq_zero] at hi
        simp [validateCreateOrderRequest, hu, hi]
      · have hne : req.items ≠ [] := by
          intro h
          exact hi (by simp [h])
        simp [validateCreateOrderRequest, hu, hi, hne,
          validateItems_ok_iff]
  · intro hu
    simp [validateCreateOrderRequest, hu]
  · intro hu hi
    simp [validateCreateOrderRequest, hu, hi]
  · intro e h
    unfold validateCreateOrderRequest at h
    by_cases hu : req.userId = ""
    · rw [if_pos hu] at h; cases h; rfl
    · rw [if_neg hu] at h
      by_cases hi : req.items.length = 0
      · rw [if_pos hi] at h; cases h; rfl
      · rw [if_neg hi] at h
        exact validateItems_error_code req.items e h
  · intro userDir repoCreate uuid0 now e h
    unfold serviceCreateOrder
    simp only [h]

/-- Witness for C5 (amended): the empty-user-id request is rejected with
the user-id error and the service performs no effect at all. -/
theorem validateCreateOrderRequest_behavior_witness :
    validateCreateOrderRequest
        ⟨"", [], ⟨"l1", "", "c", "s", "cy", "z", .unspecified⟩,
          .creditCard⟩ =
      .error ⟨.invalidArgument, "user_id is required"⟩ ∧
    serviceCreateOrder (fun _ => .ok ⟨"u1", "e", "n"⟩) (fun _ => .ok ())
        ⟨"", [], ⟨"l1", "", "c", "s", "cy", "z", .unspecified⟩,
          .creditCard⟩ "id0" 7 =
      (.error ⟨.invalidArgument, "user_id is required"⟩, []) := by
  have h := (validateCreateOrderRequest_behavior
    ⟨"", [], ⟨"l1", "", "c", "s", "cy", "z", .unspecified⟩,
      .creditCard⟩).2.1 rfl
  refine ⟨h, ?_⟩
  exact (validateCreateOrderRequest_behavior
    ⟨"", [], ⟨"l1", "", "c", "s", "cy", "z", .unspecified⟩,
      .creditCard⟩).2.2.2.2 (fun _ => .ok ⟨"u1", "e", "n"⟩)
    (fun _ => .ok ()) "id0" 7 _ h

/-- Witness for C2: the terminal status `completed` concretely admits no
transition to `processing`. -/
theorem isValidStatusTransition_characterization_witness :
    isValidStatusTransition .completed .processing = false :=
  (isValidStatusTransition_characterization .completed .processing).2
    (Or.inl rfl)

/-! ## IEEE-754 binary64 semantics of the total-amount loops

Both creation paths accumulate the total in Go `float64`
(`totalAmount += item.UnitPrice * float64(item.Quantity)` in the
handler, `sum += float64(item.Quantity) * item.UnitPrice` in the
service — identical exact products, hence identical rounded values).
The model below represents a double by its exact rational value and
rounds every multiplication and addition to 53 significant bits, round
to nearest, ties to even, as IEEE-754 prescribes for the normal range —
which contains every value arising at the inputs considered. The
rational arithmetic itself is spelled out over numerators and
denominators (`qmul`, `qadd`, …) so that the whole model evaluates
inside the kernel. -/

/-- Exact rational multiplication, via numerators and denominators. -/
def qmul (a b : ℚ) : ℚ := mkRat (a.num * b.num) (a.den * b.den)

/-- Exact rational addition, via numerators and denominators. -/
def qadd (a b : ℚ) : ℚ :=
  mkRat (a.num * (b.den : Int) + b.num * (a.den : Int)) (a.den * b.den)

/-- Exact rational negation. -/
def qneg (a : ℚ) : ℚ := mkRat (-a.num) a.den

/-- Strict comparison by cross multiplication (denominators are
positive). -/
def qltb (a b : ℚ) : Bool :=
  decide (a.num * (b.den : Int) < b.num * (a.den : Int))

/-- Non-strict comparison by cross multiplication. -/
def qleb (a b : ℚ) : Bool :=
  decide (a.num * (b.den : Int) ≤ b.num * (a.den : Int))

/-- The floor of a rational: floor division of the numerator by the
(positive) denominator. -/
def qfloor (a : ℚ) : Int := a.num.fdiv (a.den : Int)

/-- The rational value `2 ^ e` for an integer exponent. -/
def pow2 (e : Int) : ℚ :=
  if 0 ≤ e then mkRat ((2 : Int) ^ e.toNat) 1 else mkRat 1 (2 ^ (-e).toNat)

/-- The bit length of a natural number, with explicit recursion fuel so
the kernel can evaluate it (exact for every `n < 2 ^ 128`, far beyond
any value arising here). -/
def bitLenAux (fuel n : Nat) : Nat :=
  match fuel with
  | 0 => 0
  | f + 1 => if n = 0 then 0 else bitLenAux f (n / 2) + 1

/-- The bit length of a natural number: 0 for 0, `⌊log2 n⌋ + 1`
otherwise. -/
def bitLen (n : Nat) : Nat := bitLenAux 128 n

/-- Round a positive rational to the nearest integer multiple of
`2 ^ e`, ties to even — the IEEE-754 rounding step at a fixed
exponent. -/
def roundAtExp (x : ℚ) (e : Int) : ℚ :=
  let scaled := qmul x (pow2 (-e))
  let fl : Int := qfloor scaled
  let frac := qadd scaled (qneg (mkRat fl 1))
  let m : Int :=
    if qltb frac (mkRat 1 2) then fl
    else if qltb (mkRat 1 2) frac then fl + 1
    else if fl % 2 = 0 then fl
    else fl + 1
  qmul (mkRat m 1) (pow2 e)

/-- The binade of a positive rational: the exponent `e` with
`2 ^ e ≤ x < 2 ^ (e + 1)`, located from the bit lengths of numerator
and denominator and corrected by at most one step. -/
def binade (x : ℚ) : Int :=
  let e0 : Int := (bitLen x.num.toNat : Int) - (bitLen x.den : Int)
  if qleb (pow2 (e0 + 1)) x then e0 + 1
  else if qltb x (pow2 e0) then e0 - 1
  else e0

/-- Round a rational to the nearest IEEE-754 binary64 value: 53
significant bits at the value's binade, round to nearest, ties to even.
(Normal range; the subnormal and overflow ranges are never reached by
the values considered here.) -/
def roundF64 (x : ℚ) : ℚ :=
  if x.num = 0 then 0
  else if 0 < x.num then roundAtExp x (binade x - 52)
  else qneg (roundAtExp (qneg x) (binade (qneg x) - 52))

/-- float64 multiplication: the exact product, then one rounding. -/
def fmul (a b : ℚ) : ℚ := roundF64 (qmul a b)

/-- float64 addition: the exact sum, then one rounding. -/
def fadd (a b : ℚ) : ℚ := roundF64 (qadd a b)

/-- The total-amount loop of `OrderHandler.CreateOrder` under float64
semantics: `totalAmount += item.UnitPrice * float64(item.Quantity)`,
rounding at the multiply and at the add, starting from `0.0`; the
`int32` quantity converts to float64 exactly. -/
def handlerTotalAmountF64 (items : List OrderItem) : ℚ :=
  items.foldl
    (fun acc it => fadd acc (fmul it.unitPrice (mkRat it.quantity 1))) 0

set_option maxRecDepth 8000 in
/-- **C6.** Failing input for the exact-sum claim: one item of quantity
3 at the double nearest 0.1 (value 3602879701896397/2^55). The handler's
float64 loop stores 5404319552844596/2^54 — the double printed as
0.30000000000000004 — while the exact sum Σ quantity × unit price is
10808639105689191/2^55; the two differ, so the binary floating-point
accumulation violates the exact, currency-precision total the
specification mandates. -/
theorem handlerTotalAmountF64_inexact :
    roundF64 (mkRat 1 10) = mkRat 3602879701896397 (2 ^ 55) ∧
    handlerTotalAmountF64 [⟨"p1", 3, roundF64 (mkRat 1 10), "A"⟩] =
      mkRat 5404319552844596 (2 ^ 54) ∧
    (([⟨"p1", 3, roundF64 (mkRat 1 10), "A"⟩] : List OrderItem).map
      (fun it => (it.quantity : ℚ) * it.unitPrice)).sum =
      mkRat 10808639105689191 (2 ^ 55) ∧
    handlerTotalAmountF64 [⟨"p1", 3, roundF64 (mkRat 1 10), "A"⟩] ≠
      (([⟨"p1", 3, roundF64 (mkRat 1 10), "A"⟩] : List OrderItem).map
        (fun it => (it.quantity : ℚ) * it.unitPrice)).sum := by
  have h1 : roundF64 (mkRat 1 10) = mkRat 3602879701896397 (2 ^ 55) := by
    decide
  have h2 : handlerTotalAmountF64
      [⟨"p1", 3, roundF64 (mkRat 1 10), "A"⟩] =
      mkRat 5404319552844596 (2 ^ 54) := by
    decide
  have h3 : (([⟨"p1", 3, roundF64 (mkRat 1 10), "A"⟩] :
      List OrderItem).map
      (fun it => (it.quantity : ℚ) * it.unitPrice)).sum =
      mkRat 10808639105689191 (2 ^ 55) := by
    simp only [List.map_cons, List.map_nil, List.sum_cons, List.sum_nil,
      h1]
    rw [Rat.mkRat_eq_div, Rat.mkRat_eq_div]
    push_cast
    norm_num
  refine ⟨h1, h2, h3, ?_⟩
  rw [h2, h3]
  decide
